import Mathlib

/-!
Shallow embedding of `src/Aula4/chat.py`: a salary dashboard whose core is a
four-attribute conjunctive filter over an in-memory table, a metrics block
(mean / max / count / mode of pandas), and four chart-data transforms.

Rows are modelled as records over exact values (salaries as `ℚ`), tables as
`List Record` in dataframe order, and the pandas operations used by the script
(`isin`, `mean`, `max`, `mode`, `groupby(...).mean()`, `nlargest`,
`sort_values`, `value_counts`, Python's `sorted`) as executable Lean functions.
Python/pandas sort strings lexicographically by Unicode code point, and stable
sorts are used throughout (pandas `sort_values`/`nlargest` default to stable
behaviour on the tie cases relevant here), so sorting is modelled with the
stable `List.insertionSort` over a code-point lexicographic order.
-/

/-- A row of the dataset: the columns of the CSV that the script touches
(`ano`, `senioridade`, `contrato`, `tamanho_empresa`, `cargo`, `usd`,
`remoto`, `residencia_iso3`). -/
structure Record where
  ano : Int
  senioridade : String
  contrato : String
  tamanho_empresa : String
  cargo : String
  usd : ℚ
  remoto : String
  residencia_iso3 : String
  deriving DecidableEq

/-- The user's sidebar choice: one set of allowed values per filterable
attribute (the four `st.sidebar.multiselect` results). -/
structure Selection where
  anos : List Int
  senioridades : List String
  contratos : List String
  tamanhos : List String

/-- Lexicographic order on character lists, by code point; the order Python's
`sorted` and pandas use on strings. -/
def lexLe : List Char → List Char → Bool
  | [], _ => true
  | _ :: _, [] => false
  | a :: as, b :: bs => if a < b then true else if b < a then false else lexLe as bs

/-- Lexicographic code-point order on strings. -/
def strLe (a b : String) : Bool := lexLe a.data b.data

/-- The string order as a decidable relation, for sorting. -/
def strLeProp (a b : String) : Prop := strLe a b = true

instance : DecidableRel strLeProp := fun a b => instDecidableEqBool (strLe a b) true

theorem lexLe_refl (l : List Char) : lexLe l l = true := by
  induction l with
  | nil => rfl
  | cons a as ih => simp [lexLe, lt_irrefl, ih]

theorem lexLe_total (l₁ l₂ : List Char) : lexLe l₁ l₂ = true ∨ lexLe l₂ l₁ = true := by
  induction l₁ generalizing l₂ with
  | nil => left; rfl
  | cons a as ih =>
    cases l₂ with
    | nil => right; rfl
    | cons b bs =>
      rcases lt_trichotomy a b with hab | hab | hab
      · left; simp [lexLe, hab]
      · subst hab
        rcases ih bs with h | h
        · left; simp [lexLe, lt_irrefl, h]
        · right; simp [lexLe, lt_irrefl, h]
      · right; simp [lexLe, hab]

theorem lexLe_trans {l₁ l₂ l₃ : List Char} (h₁ : lexLe l₁ l₂ = true)
    (h₂ : lexLe l₂ l₃ = true) : lexLe l₁ l₃ = true := by
  induction l₁ generalizing l₂ l₃ with
  | nil => rfl
  | cons a as ih =>
    cases l₂ with
    | nil => simp [lexLe] at h₁
    | cons b bs =>
      cases l₃ with
      | nil => simp [lexLe] at h₂
      | cons c cs =>
        rcases lt_trichotomy a b with hab | hab | hab
        · rcases lt_trichotomy b c with hbc | hbc | hbc
          · simp [lexLe, lt_trans hab hbc]
          · subst hbc; simp [lexLe, hab]
          · simp [lexLe, hbc, not_lt_of_lt hbc] at h₂
        · subst hab
          rcases lt_trichotomy a c with hac | hac | hac
          · simp [lexLe, hac]
          · subst hac
            simp [lexLe, lt_irrefl] at h₁ h₂ ⊢
            exact ih h₁ h₂
          · simp [lexLe, hac, not_lt_of_lt hac] at h₂
        · simp [lexLe, hab, not_lt_of_lt hab] at h₁

instance : IsTotal String strLeProp :=
  ⟨fun a b => lexLe_total a.data b.data⟩

instance : IsTrans String strLeProp :=
  ⟨fun _ _ _ h₁ h₂ => lexLe_trans h₁ h₂⟩

theorem strLeProp_refl (s : String) : strLeProp s s := lexLe_refl s.data

/-- Python's `sorted(df_col.unique())`: the distinct values of a column, in
ascending order; the option list every sidebar multiselect is built from and
defaults to. -/
def opcoes {α : Type} [DecidableEq α] (le : α → α → Prop) [DecidableRel le]
    (col : List α) : List α :=
  List.insertionSort le col.dedup

/-- The default Filter Selection: every multiselect starts with all of its
options selected (`default=opcoes` in `filtro_multiselect`). -/
def defaultSelection (df : List Record) : Selection :=
  ⟨opcoes (fun a b : Int => a ≤ b) (df.map Record.ano),
   opcoes strLeProp (df.map Record.senioridade),
   opcoes strLeProp (df.map Record.contrato),
   opcoes strLeProp (df.map Record.tamanho_empresa)⟩

/-- The Filter Engine, `df_filtrado`: keep the rows whose year, seniority,
contract type and company size are each in the corresponding selected set
(four `isin` tests combined with `&`). -/
def df_filtrado (df : List Record) (sel : Selection) : List Record :=
  df.filter (fun r =>
    sel.anos.contains r.ano && sel.senioridades.contains r.senioridade &&
    sel.contratos.contains r.contrato && sel.tamanhos.contains r.tamanho_empresa)

/-- C1: a row is in the Filtered Table iff it is a row of the table and its
year, seniority, contract type and company size are each members of the
corresponding selection set — the four attribute filters are conjunctive
set-membership tests. -/
theorem filter_mem_iff (df : List Record) (sel : Selection) (r : Record) :
    r ∈ df_filtrado df sel ↔
      r ∈ df ∧ r.ano ∈ sel.anos ∧ r.senioridade ∈ sel.senioridades ∧
        r.contrato ∈ sel.contratos ∧ r.tamanho_empresa ∈ sel.tamanhos := by
  simp [df_filtrado, List.mem_filter, and_assoc]

/-- C2: filtering with the default selection — the full distinct-value set of
each of the four filterable attributes — returns the table unchanged. -/
theorem filter_default_eq_self (df : List Record) :
    df_filtrado df (defaultSelection df) = df := by
  apply List.filter_eq_self.mpr
  intro r hr
  have hmem : ∀ {α : Type} [DecidableEq α] (le : α → α → Prop) [DecidableRel le]
      (x : α) (col : List α), x ∈ col → x ∈ opcoes le col := by
    intro α _ le _ x col hx
    simpa [opcoes, List.mem_insertionSort, List.mem_dedup] using hx
  simp only [defaultSelection, Bool.and_eq_true, List.contains_iff_exists_mem_beq]
  refine ⟨⟨⟨?_, ?_⟩, ?_⟩, ?_⟩
  · exact ⟨r.ano, hmem _ _ _ (List.mem_map_of_mem Record.ano hr), by simp⟩
  · exact ⟨r.senioridade, hmem _ _ _ (List.mem_map_of_mem Record.senioridade hr), by simp⟩
  · exact ⟨r.contrato, hmem _ _ _ (List.mem_map_of_mem Record.contrato hr), by simp⟩
  · exact ⟨r.tamanho_empresa, hmem _ _ _ (List.mem_map_of_mem Record.tamanho_empresa hr), by simp⟩

/-- C3: for every table and selection the Filtered Table is a sublist of the
table — rows appear unchanged, in order, and nothing is added. -/
theorem filter_sublist_table (df : List Record) (sel : Selection) :
    (df_filtrado df sel).Sublist df :=
  List.filter_sublist df

/-- C10: the filter is idempotent — applying the same selection to the
already-filtered result changes nothing. -/
theorem filter_idempotent (df : List Record) (sel : Selection) :
    df_filtrado (df_filtrado df sel) sel = df_filtrado df sel := by
  unfold df_filtrado
  rw [List.filter_filter]
  exact congrFun (congrArg List.filter (funext fun r => Bool.and_self _)) df

/-- The four KPI values of the metrics block: `salario_medio`,
`salario_maximo`, `total_registros`, `cargo_mais_frequente`. -/
structure Metrics where
  salario_medio : ℚ
  salario_maximo : ℚ
  total_registros : Nat
  cargo_mais_frequente : String
  deriving DecidableEq

/-- pandas `Series.mean`: sum divided by length (exact, over `ℚ`). -/
def colMean (xs : List ℚ) : ℚ := xs.sum / xs.length

/-- pandas `Series.max` on the nonempty column it is applied to (defaulting
to 0 on the empty list, which the script never reaches). -/
def colMax (xs : List ℚ) : ℚ := xs.max?.getD 0

/-- The largest multiplicity occurring in a list of values. -/
def maxFreq (xs : List String) : Nat := (xs.map (fun v => xs.count v)).foldr max 0

/-- pandas `Series.mode`: all values of maximal multiplicity, in ascending
(lexicographic) order — pandas returns the modes sorted. -/
def modeList (xs : List String) : List String :=
  List.insertionSort strLeProp (xs.dedup.filter (fun v => xs.count v = maxFreq xs))

/-- The Metrics Summarizer (lines 56–64 of the script): on a nonempty
filtered table, mean and max of `usd`, the row count, and `mode()[0]` of
`cargo`; on the empty table, zeros and the sentinel `"–"`. -/
def summarize (dfF : List Record) : Metrics :=
  if dfF.isEmpty then ⟨0, 0, 0, "–"⟩
  else
    ⟨colMean (dfF.map Record.usd), colMax (dfF.map Record.usd), dfF.length,
     (modeList (dfF.map Record.cargo)).headD "–"⟩

/-- C4: with an empty selected set for any one of the four attributes the
Filtered Table is empty, and the Metrics Summarizer on it returns mean 0,
max 0, count 0 and the sentinel `"–"` — a defined state, not an error. -/
theorem empty_selection_empty_metrics (df : List Record) (sel : Selection)
    (h : sel.anos = [] ∨ sel.senioridades = [] ∨ sel.contratos = [] ∨
      sel.tamanhos = []) :
    df_filtrado df sel = [] ∧ summarize (df_filtrado df sel) = ⟨0, 0, 0, "–"⟩ := by
  have hnil : df_filtrado df sel = [] := by
    apply List.filter_eq_nil_iff.mpr
    intro r hr
    rcases h with h | h | h | h <;> simp [h]
  exact ⟨hnil, by rw [hnil]; rfl⟩

/-- A first example table: the spec's scenario of three rows with salaries
50000, 60000 and 70000. -/
def dfEx3 : List Record :=
  [⟨2024, "Senior", "CLT", "M", "Data Analyst", 50000, "remoto", "BRA"⟩,
   ⟨2024, "Pleno", "PJ", "G", "Data Scientist", 60000, "hibrido", "USA"⟩,
   ⟨2023, "Junior", "CLT", "P", "Data Analyst", 70000, "presencial", "BRA"⟩]

/-- Witness for C4: a concrete table and a selection whose year set is empty
filter to the empty table with all-zero metrics. -/
theorem empty_selection_empty_metrics_witness :
    ((⟨[], ["Senior"], ["CLT"], ["M"]⟩ : Selection).anos = [] ∨
      (⟨[], ["Senior"], ["CLT"], ["M"]⟩ : Selection).senioridades = [] ∨
      (⟨[], ["Senior"], ["CLT"], ["M"]⟩ : Selection).contratos = [] ∨
      (⟨[], ["Senior"], ["CLT"], ["M"]⟩ : Selection).tamanhos = []) ∧
    (df_filtrado dfEx3 ⟨[], ["Senior"], ["CLT"], ["M"]⟩ = [] ∧
      summarize (df_filtrado dfEx3 ⟨[], ["Senior"], ["CLT"], ["M"]⟩) = ⟨0, 0, 0, "–"⟩) :=
  ⟨Or.inl rfl, empty_selection_empty_metrics dfEx3 ⟨[], ["Senior"], ["CLT"], ["M"]⟩ (Or.inl rfl)⟩

/-- pandas `value_counts` on the `remoto` column (lines 118–119): one
`(category, count)` pair per distinct work-mode value, sorted by descending
count. -/
def remoto_contagem (dfF : List Record) : List (String × Nat) :=
  List.insertionSort (fun a b : String × Nat => b.2 ≤ a.2)
    ((dfF.map Record.remoto).dedup.map
      (fun v => (v, (dfF.map Record.remoto).count v)))

/-- C8: the per-category counts of the work-mode proportions chart sum to
`total_registros` from the Metrics Summarizer on the same Filtered Table. -/
theorem remoto_counts_sum_eq_total (dfF : List Record) :
    ((remoto_contagem dfF).map Prod.snd).sum = (summarize dfF).total_registros := by
  have hperm : ((remoto_contagem dfF).map Prod.snd).Perm
      (((dfF.map Record.remoto).dedup.map
        (fun v => (v, (dfF.map Record.remoto).count v))).map Prod.snd) :=
    (List.perm_insertionSort _ _).map Prod.snd
  rw [hperm.sum_eq, List.map_map]
  have hsum : ((dfF.map Record.remoto).dedup.map
      (fun v => (dfF.map Record.remoto).count v)).sum = (dfF.map Record.remoto).length :=
    List.sum_map_count_dedup_eq_length _
  by_cases hd : dfF.isEmpty
  · rw [List.isEmpty_iff.mp hd]
    rfl
  · rw [summarize, if_neg hd]
    simpa using hsum

theorem foldr_max_le {l : List Nat} {a : Nat} (h : a ∈ l) : a ≤ l.foldr max 0 := by
  induction l with
  | nil => cases h
  | cons b bs ih =>
    rcases List.mem_cons.mp h with h | h
    · subst h; exact le_max_left _ _
    · exact le_trans (ih h) (le_max_right _ _)

theorem foldr_max_mem (l : List Nat) (h : l ≠ []) :
    l.foldr max 0 ∈ l ∨ l.foldr max 0 = 0 := by
  induction l with
  | nil => exact absurd rfl h
  | cons b bs ih =>
    cases bs with
    | nil => left; simp
    | cons c cs =>
      rcases ih (by simp) with hmem | hzero
      · rcases max_choice b ((c :: cs).foldr max 0) with hm | hm
        · left
          have : (b :: c :: cs).foldr max 0 = b := hm
          rw [this]
          exact List.mem_cons_self _ _
        · left
          have : (b :: c :: cs).foldr max 0 = (c :: cs).foldr max 0 := hm
          rw [this]
          exact List.mem_cons_of_mem _ hmem
      · left
        have : (b :: c :: cs).foldr max 0 = max b 0 := by rw [List.foldr_cons, hzero]
        simp [this]

theorem count_le_maxFreq {xs : List String} {c : String} (h : c ∈ xs) :
    xs.count c ≤ maxFreq xs :=
  foldr_max_le (List.mem_map_of_mem (fun v => xs.count v) h)

theorem mem_modeList_iff {xs : List String} {v : String} :
    v ∈ modeList xs ↔ v ∈ xs ∧ xs.count v = maxFreq xs := by
  simp [modeList, List.mem_insertionSort, List.mem_filter, List.mem_dedup]

theorem modeList_ne_nil (xs : List String) (h : xs ≠ []) : modeList xs ≠ [] := by
  have hcounts : (xs.map (fun v => xs.count v)) ≠ [] := by
    simpa using h
  rcases foldr_max_mem _ hcounts with hmem | hzero
  · rcases List.mem_map.mp hmem with ⟨v, hv, hcv⟩
    exact List.ne_nil_of_mem (mem_modeList_iff.mpr ⟨hv, hcv⟩)
  · cases xs with
    | nil => exact absurd rfl h
    | cons a as =>
      have hpos : 0 < (a :: as).count a := List.count_pos_iff.mpr (List.mem_cons_self a as)
      have hle : (a :: as).count a ≤ maxFreq (a :: as) := count_le_maxFreq (List.mem_cons_self a as)
      rw [maxFreq] at hle
      omega

theorem modeList_sorted (xs : List String) : List.Sorted strLeProp (modeList xs) :=
  List.sorted_insertionSort strLeProp _

theorem mode0_spec (xs : List String) (h : xs ≠ []) :
    (modeList xs).headD "–" ∈ xs ∧
    xs.count ((modeList xs).headD "–") = maxFreq xs ∧
    ∀ c ∈ modeList xs, strLeProp ((modeList xs).headD "–") c := by
  cases hm : modeList xs with
  | nil => exact absurd hm (modeList_ne_nil xs h)
  | cons m ms =>
    have hmem : m ∈ modeList xs := by rw [hm]; exact List.mem_cons_self m ms
    obtain ⟨hmx, hmc⟩ := mem_modeList_iff.mp hmem
    have hsorted := modeList_sorted xs
    rw [hm] at hsorted
    obtain ⟨hrel, -⟩ := List.pairwise_cons.mp hsorted
    refine ⟨by simpa [hm] using hmx, by simpa [hm] using hmc, ?_⟩
    intro c hc
    simp only [List.headD_cons]
    rcases List.mem_cons.mp hc with hc | hc
    · rw [hc]; exact strLeProp_refl m
    · exact hrel c hc

/-- A table with a tie for most frequent job title, the later row's title
sorting before the earlier one's. -/
def dfTie : List Record :=
  [⟨2024, "Senior", "CLT", "M", "ML Engineer", 100000, "remoto", "BRA"⟩,
   ⟨2024, "Pleno", "PJ", "G", "Data Analyst", 90000, "remoto", "USA"⟩]

/-- Counterexample to C5 as stated: in `dfTie` the titles "ML Engineer"
(first-encountered) and "Data Analyst" are tied for most frequent, yet the
summarizer reports "Data Analyst" — pandas `mode()` returns the modes in
sorted order, so ties break to the lexicographically smallest value, not to
the first-encountered one. -/
theorem mode_tie_first_encountered_fails :
    (dfTie.map Record.cargo).count "ML Engineer" =
      (dfTie.map Record.cargo).count "Data Analyst" ∧
    (dfTie.map Record.cargo).head? = some "ML Engineer" ∧
    (summarize dfTie).cargo_mais_frequente = "Data Analyst" := by
  refine ⟨by decide, by decide, by decide⟩

/-- The amended contract of the Metrics Summarizer on a nonempty filtered
table, following the spec's words for mean, max and count, with the
tie-break amended to pandas' actual rule: `cargo_mais_frequente` is a title
of the table of maximal multiplicity that sorts lexicographically no later
than any other maximal-multiplicity title. -/
def MetricsSpec (dfF : List Record) : Prop :=
  (summarize dfF).total_registros = dfF.length ∧
  (summarize dfF).salario_medio * (dfF.length : ℚ) = (dfF.map Record.usd).sum ∧
  (summarize dfF).salario_maximo ∈ dfF.map Record.usd ∧
  (∀ x ∈ dfF.map Record.usd, x ≤ (summarize dfF).salario_maximo) ∧
  (summarize dfF).cargo_mais_frequente ∈ dfF.map Record.cargo ∧
  (∀ c ∈ dfF.map Record.cargo,
    (dfF.map Record.cargo).count c ≤
      (dfF.map Record.cargo).count (summarize dfF).cargo_mais_frequente) ∧
  (∀ c ∈ dfF.map Record.cargo,
    (dfF.map Record.cargo).count c =
      (dfF.map Record.cargo).count (summarize dfF).cargo_mais_frequente →
    strLeProp (summarize dfF).cargo_mais_frequente c)

/-- C5 (amended): on every nonempty filtered table the summarizer's count is
the row count, its mean times the row count is the salary sum, its max is an
attained upper bound of the salaries, and its top title attains the maximal
title multiplicity and sorts lexicographically first among the titles that
attain it. -/
theorem summarize_spec (dfF : List Record) (h : dfF ≠ []) : MetricsSpec dfF := by
  have hne : dfF.isEmpty = false := List.isEmpty_eq_false.mpr h
  have hsum : summarize dfF =
      ⟨colMean (dfF.map Record.usd), colMax (dfF.map Record.usd), dfF.length,
       (modeList (dfF.map Record.cargo)).headD "–"⟩ := by
    rw [summarize, if_neg (by simp [hne])]
  have hlen : (dfF.length : ℚ) ≠ 0 := by
    exact_mod_cast fun hc => h (List.length_eq_zero.mp (by exact_mod_cast hc))
  have husd : dfF.map Record.usd ≠ [] := by simpa using h
  obtain ⟨mx, hmx⟩ : ∃ m, (dfF.map Record.usd).max? = some m := by
    cases hm : (dfF.map Record.usd).max? with
    | none => exact absurd (List.max?_eq_none_iff.mp hm) husd
    | some m => exact ⟨m, rfl⟩
  have hcargo : dfF.map Record.cargo ≠ [] := by simpa using h
  obtain ⟨hm_mem, hm_count, hm_min⟩ := mode0_spec (dfF.map Record.cargo) hcargo
  refine ⟨by rw [hsum], ?_, ?_, ?_, ?_, ?_, ?_⟩
  · rw [hsum]
    show colMean (dfF.map Record.usd) * (dfF.length : ℚ) = (dfF.map Record.usd).sum
    rw [colMean, List.length_map]
    exact div_mul_cancel₀ _ hlen
  · rw [hsum]
    show colMax (dfF.map Record.usd) ∈ dfF.map Record.usd
    rw [colMax, hmx]
    exact List.max?_mem max_choice hmx
  · intro x hx
    rw [hsum]
    show x ≤ colMax (dfF.map Record.usd)
    rw [colMax, hmx]
    exact ((List.max?_le_iff (fun _ _ _ => max_le_iff) hmx).mp le_rfl) x hx
  · rw [hsum]
    exact hm_mem
  · intro c hc
    rw [hsum]
    show (dfF.map Record.cargo).count c ≤
      (dfF.map Record.cargo).count ((modeList (dfF.map Record.cargo)).headD "–")
    rw [hm_count]
    exact count_le_maxFreq hc
  · intro c hc hcount
    rw [hsum] at hcount ⊢
    show strLeProp ((modeList (dfF.map Record.cargo)).headD "–") c
    apply hm_min
    apply mem_modeList_iff.mpr
    refine ⟨hc, ?_⟩
    rw [hcount]
    exact hm_count

/-- Witness for C5 (amended): the spec's own three-row scenario is nonempty
and satisfies the amended summarizer contract. -/
theorem summarize_spec_witness : dfEx3 ≠ [] ∧ MetricsSpec dfEx3 :=
  ⟨by decide, summarize_spec dfEx3 (by decide)⟩

/-- Ascending comparison of chart rows by mean salary (pandas
`sort_values()`). -/
def byMeanAsc (a b : String × ℚ) : Prop := a.2 ≤ b.2

/-- Descending comparison of chart rows by mean salary (pandas
`nlargest`). -/
def byMeanDesc (a b : String × ℚ) : Prop := b.2 ≤ a.2

instance : DecidableRel byMeanAsc := fun a b => Rat.instDecidableLe a.2 b.2

instance : DecidableRel byMeanDesc := fun a b => Rat.instDecidableLe b.2 a.2

instance : IsTotal (String × ℚ) byMeanAsc := ⟨fun a b => le_total a.2 b.2⟩

instance : IsTrans (String × ℚ) byMeanAsc := ⟨fun _ _ _ h₁ h₂ => le_trans h₁ h₂⟩

instance : IsTotal (String × ℚ) byMeanDesc := ⟨fun a b => le_total b.2 a.2⟩

instance : IsTrans (String × ℚ) byMeanDesc := ⟨fun _ _ _ h₁ h₂ => le_trans h₂ h₁⟩

/-- pandas `df_filtrado.groupby('cargo')['usd'].mean()` (line 81): one pair
per distinct job title (groupby keys come out sorted), carrying the mean
salary of the rows with that title. -/
def groupby_cargo_mean (dfF : List Record) : List (String × ℚ) :=
  (List.insertionSort strLeProp (dfF.map Record.cargo).dedup).map
    (fun c => (c, colMean ((dfF.filter (fun r => r.cargo == c)).map Record.usd)))

/-- The Top-10 chart data, `top_cargos` (lines 80–86): the grouped means,
`nlargest(10)` (stable descending sort, take 10), then `sort_values()`
(ascending). -/
def top_cargos (dfF : List Record) : List (String × ℚ) :=
  List.insertionSort byMeanAsc
    ((List.insertionSort byMeanDesc (groupby_cargo_mean dfF)).take 10)

/-- The contract of the Top-10 chart builder: at most ten groups, sorted
ascending by mean, each being a job-title group with its mean salary, and no
left-out group has a mean above any kept group's. -/
def TopCargosSpec (dfF : List Record) : Prop :=
  (top_cargos dfF).length ≤ 10 ∧
  List.Sorted byMeanAsc (top_cargos dfF) ∧
  (∀ p ∈ top_cargos dfF, p ∈ groupby_cargo_mean dfF) ∧
  (∀ p ∈ top_cargos dfF,
    p.2 = colMean ((dfF.filter (fun r => r.cargo == p.1)).map Record.usd)) ∧
  (∀ q ∈ groupby_cargo_mean dfF, q ∉ top_cargos dfF →
    ∀ p ∈ top_cargos dfF, q.2 ≤ p.2)

theorem mem_groupby_cargo_mean_eq {dfF : List Record} {p : String × ℚ}
    (hp : p ∈ groupby_cargo_mean dfF) :
    p.2 = colMean ((dfF.filter (fun r => r.cargo == p.1)).map Record.usd) := by
  obtain ⟨c, -, hc⟩ := List.mem_map.mp hp
  rw [← hc]

theorem mem_top_cargos {dfF : List Record} {p : String × ℚ}
    (hp : p ∈ top_cargos dfF) : p ∈ groupby_cargo_mean dfF := by
  rw [top_cargos, List.mem_insertionSort] at hp
  have := List.mem_of_mem_take hp
  rwa [List.mem_insertionSort] at this

/-- C6: for every nonempty filtered table the Top-10 chart builder returns at
most ten job-title groups with their mean salaries, sorted ascending by mean,
and every group it leaves out has mean no larger than every group it keeps. -/
theorem top_cargos_spec (dfF : List Record) (_h : dfF ≠ []) : TopCargosSpec dfF := by
  refine ⟨?_, ?_, fun p hp => mem_top_cargos hp,
    fun p hp => mem_groupby_cargo_mean_eq (mem_top_cargos hp), ?_⟩
  · rw [top_cargos, List.length_insertionSort, List.length_take]
    exact min_le_left _ _
  · exact List.sorted_insertionSort byMeanAsc _
  · intro q hq hqnot p hp
    set S := List.insertionSort byMeanDesc (groupby_cargo_mean dfF) with hS
    have hqS : q ∈ S := (List.mem_insertionSort byMeanDesc).mpr hq
    have hqtake : q ∉ S.take 10 := fun hc =>
      hqnot (by rw [top_cargos, List.mem_insertionSort]; exact hc)
    have hqdrop : q ∈ S.drop 10 := by
      rcases List.mem_append.mp ((List.take_append_drop 10 S) ▸ hqS) with hc | hc
      · exact absurd hc hqtake
      · exact hc
    have hptake : p ∈ S.take 10 := by
      rw [top_cargos, List.mem_insertionSort] at hp
      exact hp
    have hpair : List.Pairwise byMeanDesc S :=
      List.sorted_insertionSort byMeanDesc _
    rw [← List.take_append_drop 10 S, List.pairwise_append] at hpair
    exact hpair.2.2 p hptake q hqdrop

/-- Witness for C6: the three-row example table is nonempty and satisfies the
Top-10 chart contract. -/
theorem top_cargos_spec_witness : dfEx3 ≠ [] ∧ TopCargosSpec dfEx3 :=
  ⟨by decide, top_cargos_spec dfEx3 (by decide)⟩

/-- Modelled from the spec: the salary-distribution chart's binning happens
inside the plotting library (`px.histogram(df_filtrado, x='usd', nbins=30)`,
lines 102–111) and is not code of this repository; only the bin-count
parameter 30 is. Following the spec's words, the transform buckets the salary
values into a fixed number (30) of equal-width bins spanning the observed
minimum and maximum of the filtered data. -/
def fig_dist (dfF : List Record) : List (ℚ × ℚ) :=
  let xs := dfF.map Record.usd
  let lo := xs.min?.getD 0
  let hi := xs.max?.getD 0
  let w := (hi - lo) / 30
  (List.range 30).map (fun i : ℕ => (lo + (i : ℚ) * w, lo + ((i : ℚ) + 1) * w))

/-- The contract of the salary-distribution builder: exactly 30 bins, all of
width one-thirtieth of the observed range, the first starting at the observed
minimum and the last ending at the observed maximum, those extremes being
attained bounds of the salary column. -/
def HistSpec (dfF : List Record) : Prop :=
  (fig_dist dfF).length = 30 ∧
  (∀ b ∈ fig_dist dfF,
    b.2 - b.1 = ((dfF.map Record.usd).max?.getD 0 - (dfF.map Record.usd).min?.getD 0) / 30) ∧
  ((fig_dist dfF)[0]?).map Prod.fst = some ((dfF.map Record.usd).min?.getD 0) ∧
  ((fig_dist dfF)[29]?).map Prod.snd = some ((dfF.map Record.usd).max?.getD 0) ∧
  (dfF.map Record.usd).min?.getD 0 ∈ dfF.map Record.usd ∧
  (dfF.map Record.usd).max?.getD 0 ∈ dfF.map Record.usd ∧
  (∀ x ∈ dfF.map Record.usd,
    (dfF.map Record.usd).min?.getD 0 ≤ x ∧ x ≤ (dfF.map Record.usd).max?.getD 0)

/-- C7: on every nonempty filtered table the distribution builder produces
exactly 30 equal-width bins spanning the observed salary minimum and
maximum. -/
theorem fig_dist_spec (dfF : List Record) (h : dfF ≠ []) : HistSpec dfF := by
  have husd : dfF.map Record.usd ≠ [] := by simpa using h
  obtain ⟨mn, hmn⟩ : ∃ m, (dfF.map Record.usd).min? = some m := by
    cases hm : (dfF.map Record.usd).min? with
    | none => exact absurd (List.min?_eq_none_iff.mp hm) husd
    | some m => exact ⟨m, rfl⟩
  obtain ⟨mx, hmx⟩ : ∃ m, (dfF.map Record.usd).max? = some m := by
    cases hm : (dfF.map Record.usd).max? with
    | none => exact absurd (List.max?_eq_none_iff.mp hm) husd
    | some m => exact ⟨m, rfl⟩
  refine ⟨?_, ?_, ?_, ?_, ?_, ?_, ?_⟩
  · simp [fig_dist]
  · intro b hb
    simp only [fig_dist, List.mem_map] at hb
    obtain ⟨i, -, hib⟩ := hb
    rw [← hib]
    ring
  · rw [fig_dist]
    rw [List.getElem?_map, List.getElem?_range (show 0 < 30 by norm_num)]
    simp
  · rw [fig_dist]
    rw [List.getElem?_map, List.getElem?_range (show 29 < 30 by norm_num)]
    simp only [Option.map_some']
    congr 1
    rw [hmn, hmx]
    simp only [Option.getD_some]
    rw [show ((29 : ℕ) : ℚ) + 1 = 30 by norm_num]
    field_simp
  · rw [hmn, Option.getD_some]
    exact List.min?_mem min_choice hmn
  · rw [hmx, Option.getD_some]
    exact List.max?_mem max_choice hmx
  · intro x hx
    rw [hmn, hmx, Option.getD_some, Option.getD_some]
    constructor
    · exact ((List.le_min?_iff (fun _ _ _ => le_min_iff) hmn).mp le_rfl) x hx
    · exact ((List.max?_le_iff (fun _ _ _ => max_le_iff) hmx).mp le_rfl) x hx

/-- Witness for C7: the three-row example table is nonempty and satisfies the
30-bin distribution contract. -/
theorem fig_dist_spec_witness : dfEx3 ≠ [] ∧ HistSpec dfEx3 :=
  ⟨by decide, fig_dist_spec dfEx3 (by decide)⟩

/-- The three outcomes of the per-country chart block (lines 134–152): the
outer "no data at all" message, the inner "no data for Data Scientist"
message, and the rendered per-country mean-salary table. -/
inductive ChartPais where
  | noDataAll : ChartPais
  | noDataDS : ChartPais
  | chart : List (String × ℚ) → ChartPais
  deriving DecidableEq

/-- pandas `df_ds.groupby('residencia_iso3')['usd'].mean()` (line 138): one
pair per distinct residence country code (groupby keys come out sorted),
carrying the mean salary of the rows from that country. -/
def media_pais (df_ds : List Record) : List (String × ℚ) :=
  (List.insertionSort strLeProp (df_ds.map Record.residencia_iso3).dedup).map
    (fun c => (c, colMean ((df_ds.filter (fun r => r.residencia_iso3 == c)).map Record.usd)))

/-- The per-country chart builder (lines 134–152): empty filtered table →
outer no-data message; no "Data Scientist" row → inner no-data message;
otherwise the per-country means of the "Data Scientist" rows. -/
def grafico_pais (dfF : List Record) : ChartPais :=
  if dfF.isEmpty then ChartPais.noDataAll
  else if (dfF.filter (fun r => r.cargo == "Data Scientist")).isEmpty then
    ChartPais.noDataDS
  else
    ChartPais.chart (media_pais (dfF.filter (fun r => r.cargo == "Data Scientist")))

theorem mem_media_pais_eq {ds : List Record} {p : String × ℚ}
    (hp : p ∈ media_pais ds) :
    p.2 = colMean ((ds.filter (fun r => r.residencia_iso3 == p.1)).map Record.usd) := by
  obtain ⟨c, -, hc⟩ := List.mem_map.mp hp
  rw [← hc]

/-- The contract of the per-country chart builder on a nonempty filtered
table: with no "Data Scientist" row it reports the inner no-data state, which
is distinct from the outer no-data state reported only for the empty table;
with such a row it charts the matching rows grouped by residence country,
every group carrying the mean salary of its country's matching rows and every
country of a matching row having a group. -/
def GraficoPaisSpec (dfF : List Record) : Prop :=
  ((∀ r ∈ dfF, r.cargo ≠ "Data Scientist") → grafico_pais dfF = ChartPais.noDataDS) ∧
  ChartPais.noDataDS ≠ ChartPais.noDataAll ∧
  grafico_pais [] = ChartPais.noDataAll ∧
  ((∃ r ∈ dfF, r.cargo = "Data Scientist") →
    grafico_pais dfF =
      ChartPais.chart (media_pais (dfF.filter (fun r => r.cargo == "Data Scientist"))) ∧
    (∀ p ∈ media_pais (dfF.filter (fun r => r.cargo == "Data Scientist")),
      p.2 = colMean (((dfF.filter (fun r => r.cargo == "Data Scientist")).filter
        (fun r => r.residencia_iso3 == p.1)).map Record.usd)) ∧
    (∀ c ∈ (dfF.filter (fun r => r.cargo == "Data Scientist")).map Record.residencia_iso3,
      ∃ p ∈ media_pais (dfF.filter (fun r => r.cargo == "Data Scientist")), p.1 = c))

/-- C9: on every nonempty filtered table the per-country chart reports the
"no data for this title" state exactly when no row's title is
"Data Scientist", distinctly from the outer "no data at all" state of the
empty table; otherwise it groups the matching rows by residence country with
their mean salaries. -/
theorem grafico_pais_spec (dfF : List Record) (h : dfF ≠ []) : GraficoPaisSpec dfF := by
  have hne : dfF.isEmpty = false := List.isEmpty_eq_false.mpr h
  refine ⟨?_, by simp, rfl, ?_⟩
  · intro hall
    have hnil : dfF.filter (fun r => r.cargo == "Data Scientist") = [] := by
      apply List.filter_eq_nil_iff.mpr
      intro r hr
      simpa using hall r hr
    rw [grafico_pais, if_neg (by simp [hne]), hnil]
    rfl
  · intro hex
    obtain ⟨r, hr, hcargo⟩ := hex
    have hmem : r ∈ dfF.filter (fun r => r.cargo == "Data Scientist") :=
      List.mem_filter.mpr ⟨hr, by simp [hcargo]⟩
    have hfne : (dfF.filter (fun r => r.cargo == "Data Scientist")).isEmpty = false :=
      List.isEmpty_eq_false.mpr (List.ne_nil_of_mem hmem)
    refine ⟨?_, fun p hp => mem_media_pais_eq hp, ?_⟩
    · rw [grafico_pais, if_neg (by simp [hne]), if_neg (by simp [hfne])]
    · intro c hc
      refine ⟨(c, colMean (((dfF.filter (fun r => r.cargo == "Data Scientist")).filter
        (fun r => r.residencia_iso3 == c)).map Record.usd)), ?_, rfl⟩
      apply List.mem_map_of_mem
      rw [List.mem_insertionSort, List.mem_dedup]
      exact hc

/-- Witness for C9: the three-row example table is nonempty (and contains a
"Data Scientist" row) and satisfies the per-country chart contract. -/
theorem grafico_pais_spec_witness : dfEx3 ≠ [] ∧ GraficoPaisSpec dfEx3 :=
  ⟨by decide, grafico_pais_spec dfEx3 (by decide)⟩
